import Mathlib

/-!
Shallow embedding of the ViralSafe platform's wallet-based authentication
subsystem (`src/backend/app/routers/auth.py`), its domain models
(`src/backend/app/models/user.py`, `src/backend/app/models/post.py`) and the
configuration defaults (`src/backend/app/core/config.py`).

Modelling conventions:
- timestamps (`datetime.utcnow()`) are natural numbers counting seconds;
  `timedelta(minutes=5)` is `300`, the ISO rendering of a timestamp inside the
  challenge message is abstracted as `toString` of the clock value;
- the MongoDB collections `auth_nonces` and `users` are lists of documents;
  `find_one` is `List.find?`, `update_one` with `$set` updates the first
  matching document, `delete_one` removes the first matching document, and
  `update_one(..., upsert=True)` updates the first match or inserts;
- Python `float` profile fields that no claim computes with (token balances,
  engagement rates) are carried as `Int`;
- fallible route handlers return `Except AuthError (DB × response)`; an
  uncaught exception path (HTTP 500) is the `InternalError` constructor;
- the third-party Ethereum recovery `Account.recover_message` (library code,
  not in this repository) is a parameter `recover : String → String → Option
  String`; `none` stands for the exception path that `verify_signature`
  swallows with `try/except`;
- `app/core/security.py` (`create_access_token`, `create_refresh_token`,
  `verify_token`) is not part of the provided sources; those functions are
  modelled from the spec, see the `Token` section below.
-/

namespace ViralSafe

/-! ## Generic Mongo-style collection operations -/

/-- Python `str.lower()` (ASCII case folding — wallet addresses, usernames
and nonces in this system are ASCII).  Defined by structural recursion over
the character list so that concrete runs evaluate. -/
def lower (s : String) : String :=
  ⟨s.data.map Char.toLower⟩

/-- Python `str.startswith(pre)`. -/
def pyStartsWith (s pre : String) : Bool :=
  pre.data.isPrefixOf s.data

/-- `update_one(filter, {"$set": ...})`: rewrite the first document matching
`p` with `f`, leave the rest untouched. -/
def updateFirst (p : α → Bool) (f : α → α) : List α → List α
  | [] => []
  | x :: xs => if p x then f x :: xs else x :: updateFirst p f xs

/-- `delete_one(filter)`: remove the first document matching `p`. -/
def deleteFirst (p : α → Bool) : List α → List α
  | [] => []
  | x :: xs => if p x then xs else x :: deleteFirst p xs

/-! ## Settings (`src/backend/app/core/config.py`) -/

/-- `Settings.access_token_expire_minutes` default. -/
def access_token_expire_minutes : Nat := 30

/-- `Settings.refresh_token_expire_days` default. -/
def refresh_token_expire_days : Nat := 30

/-! ## Tokens

Modelled from the spec: `create_access_token`, `create_refresh_token` and
`verify_token` live in `app/core/security.py`, which is not among the provided
sources.  Per the spec, a token carries a subject claim, a type tag
("access"/"refresh"), an expiry, and is signed; `verify_token` "validates the
refresh token's signature/expiry and type tag".  A token is modelled as its
decoded payload plus a flag saying whether its signature verifies under the
service secret; two tokens are equal exactly when their serialized JWT strings
are (HS256 signing is deterministic), so the stored refresh token is carried
as a `Token` value where the database stores the JWT string. -/
structure Token where
  sub : Option String
  typ : String
  exp : Nat
  sig_ok : Bool
deriving DecidableEq, Repr

/-- Decoded JWT payload as seen by the handlers (`payload.get("sub")`). -/
structure Payload where
  sub : Option String
deriving DecidableEq, Repr

/-- Modelled from the spec: `create_access_token(subject=...)` from
`app/core/security.py` issues a signed access token for `subject` expiring
`access_token_expire_minutes` from now. -/
def create_access_token (now : Nat) (subject : String) : Token where
  sub := some subject
  typ := "access"
  exp := now + access_token_expire_minutes * 60
  sig_ok := true

/-- Modelled from the spec: `create_refresh_token(subject=...)` from
`app/core/security.py` issues a signed refresh token for `subject` expiring
`refresh_token_expire_days` from now. -/
def create_refresh_token (now : Nat) (subject : String) : Token where
  sub := some subject
  typ := "refresh"
  exp := now + refresh_token_expire_days * 86400
  sig_ok := true

/-- Modelled from the spec: `verify_token(token, token_type)` from
`app/core/security.py` validates the token's signature, expiry and type tag,
returning the decoded payload on success and `None` on any failure. -/
def verify_token (now : Nat) (t : Token) (token_type : String) : Option Payload :=
  if t.sig_ok && decide (now < t.exp) && t.typ == token_type then
    some { sub := t.sub }
  else
    none

/-! ## Domain models (`src/backend/app/models/user.py`) -/

/-- `UserRole` enumeration. -/
inductive UserRole where
  | user | creator | moderator | admin
deriving DecidableEq, Repr

/-- `UserStatus` enumeration. -/
inductive UserStatus where
  | active | suspended | banned | pending
deriving DecidableEq, Repr

/-- `SocialLinks` model. -/
structure SocialLinks where
  tiktok : Option String := none
  twitter : Option String := none
  instagram : Option String := none
  youtube : Option String := none
  discord : Option String := none
deriving DecidableEq, Repr

/-- `UserStats` model (float statistics carried as `Int`). -/
structure UserStats where
  total_posts : Nat := 0
  total_votes_received : Nat := 0
  total_votes_given : Nat := 0
  total_nfts_minted : Nat := 0
  total_nfts_owned : Nat := 0
  total_tokens_earned : Int := 0
  total_tokens_staked : Int := 0
  viral_score : Nat := 0
  followers_count : Nat := 0
  following_count : Nat := 0
  level : Nat := 1
deriving DecidableEq, Repr

/-- `UserPreferences` model. -/
structure UserPreferences where
  email_notifications : Bool := true
  push_notifications : Bool := true
  privacy_level : String := "public"
  auto_stake_rewards : Bool := false
  preferred_language : String := "en"
  theme : String := "dark"
deriving DecidableEq, Repr

/-- `UserInDB`: the stored user document.  `id` models the BSON `_id`.  The
two authentication secrets, `nonce` and `refresh_token`, live here and only
here. -/
structure UserDoc where
  id : Nat
  wallet_address : String
  email : Option String := none
  username : String
  display_name : Option String := none
  bio : Option String := none
  avatar_url : Option String := none
  banner_url : Option String := none
  role : UserRole := .user
  status : UserStatus := .active
  is_verified : Bool := false
  is_creator : Bool := false
  social_links : SocialLinks := {}
  stats : UserStats := {}
  preferences : UserPreferences := {}
  token_balance : Int := 0
  staked_balance : Int := 0
  nft_count : Nat := 0
  created_at : Nat
  last_login : Option Nat := none
  nonce : Option String := none
  refresh_token : Option Token := none
deriving DecidableEq, Repr

/-- `UserResponse`: the API-facing user profile.  Its field list is the one of
`user.py` lines 164-184; it has no `nonce` and no `refresh_token` field. -/
structure UserResponse where
  id : Nat
  wallet_address : String
  username : String
  display_name : Option String
  bio : Option String
  avatar_url : Option String
  banner_url : Option String
  role : UserRole
  status : UserStatus
  is_verified : Bool
  is_creator : Bool
  social_links : SocialLinks
  stats : UserStats
  preferences : UserPreferences
  token_balance : Int
  staked_balance : Int
  nft_count : Int
  created_at : Nat
  last_login : Option Nat
deriving DecidableEq, Repr

/-- `UserResponse(**user)`: project a stored document onto the response
model.  Fields absent from `UserResponse` (in particular `nonce` and
`refresh_token`) are dropped. -/
def toUserResponse (u : UserDoc) : UserResponse where
  id := u.id
  wallet_address := u.wallet_address
  username := u.username
  display_name := u.display_name
  bio := u.bio
  avatar_url := u.avatar_url
  banner_url := u.banner_url
  role := u.role
  status := u.status
  is_verified := u.is_verified
  is_creator := u.is_creator
  social_links := u.social_links
  stats := u.stats
  preferences := u.preferences
  token_balance := u.token_balance
  staked_balance := u.staked_balance
  nft_count := u.nft_count
  created_at := u.created_at
  last_login := u.last_login

/-- `UserCreate`: registration payload.  Pydantic length bounds are checked by
`UserCreate.valid` below; the field validators are separate functions. -/
structure UserCreate where
  wallet_address : String
  username : String
  email : Option String := none
  display_name : Option String := none
  bio : Option String := none
deriving DecidableEq, Repr

/-- `UserCreate.validate_wallet_address`: requires the `0x` prefix and
lowercases; `none` models the raised `ValueError`. -/
def UserCreate.validate_wallet_address (v : String) : Option String :=
  if pyStartsWith v "0x" then some (lower v) else none

/-- `UserCreate.validate_username`: requires alphanumeric (Python `isalnum`,
false on the empty string) and lowercases. -/
def UserCreate.validate_username (v : String) : Option String :=
  if !v.toList.isEmpty && v.toList.all Char.isAlphanum then some (lower v) else none

/-! ## Auth request validation (`auth.py` lines 22-37)

`AuthRequest.wallet_address` and `SignatureRequest.wallet_address` carry only
the Pydantic constraint `min_length=42, max_length=42`; no prefix validator is
attached to them. -/

/-- Pydantic validation of `AuthRequest` / `SignatureRequest.wallet_address`:
exactly 42 characters, nothing else. -/
def validWalletField (s : String) : Bool :=
  s.length == 42

/-- `SignatureRequest` body. -/
structure SignatureRequest where
  wallet_address : String
  signature : String
  nonce : String
  user_data : Option UserCreate := none
deriving DecidableEq, Repr

/-! ## Helper functions (`auth.py` lines 56-88) -/

/-- One lowercase hex digit. -/
def hexDigit (n : Nat) : Char :=
  if n < 10 then Char.ofNat (48 + n) else Char.ofNat (87 + n)

/-- Hex rendering of one byte (two lowercase hex digits). -/
def byteToHex (b : Nat) : List Char :=
  [hexDigit (b % 256 / 16), hexDigit (b % 256 % 16)]

/-- `generate_nonce`: `secrets.token_hex(16)` hex-encodes 16 random bytes; the
random bytes are the `entropy` argument (values taken mod 256). -/
def generate_nonce (entropy : List Nat) : String :=
  ⟨(entropy.map byteToHex).flatten⟩

/-- Template segment of the challenge message before the wallet address. -/
def msgA : String := "🚀 ViralSafe Authentication\n\nWallet: "

/-- Template segment between the wallet address and the nonce. -/
def msgB : String := "\nNonce: "

/-- Template segment between the nonce and the timestamp. -/
def msgC : String := "\nTimestamp: "

/-- Template segment after the timestamp. -/
def msgD : String :=
  "\n\nSign this message to authenticate with ViralSafe Platform.\nThis request will not trigger any blockchain transaction or cost any gas fees.\n\nSecurity: This signature proves you own this wallet address."

/-- `create_auth_message`: the f-string template of `auth.py` lines 61-73. -/
def create_auth_message (wallet_address : String) (nonce : String) (now : Nat) : String :=
  msgA ++ wallet_address ++ msgB ++ nonce ++ msgC ++ toString now ++ msgD

/-- `verify_signature`: recover the signing address from the message and
signature and compare case-insensitively with the claimed address.  `recover`
stands for `encode_defunct` + `Account.recover_message`; `none` is the
exception path, which the Python `try/except` turns into `False`. -/
def verify_signature (recover : String → String → Option String)
    (message signature wallet_address : String) : Bool :=
  match recover message signature with
  | some recovered_address => lower recovered_address == lower wallet_address
  | none => false

/-! ## Database state -/

/-- `auth_nonces` document: upserted by `request_nonce`, keyed by wallet. -/
structure NonceDoc where
  wallet_address : String
  nonce : String
  message : String
  created_at : Nat
  expires_at : Nat
deriving DecidableEq, Repr

/-- The two collections the auth subsystem touches. -/
structure DB where
  auth_nonces : List NonceDoc
  users : List UserDoc
deriving DecidableEq, Repr

/-- Well-formedness the real deployment guarantees (unique `_id`s, the spec's
unique wallet address, at most one nonce document per wallet), as an
executable check. -/
def DB.wf (db : DB) : Bool :=
  db.users.Pairwise (fun a b => a.id ≠ b.id ∧ a.wallet_address ≠ b.wallet_address) ∧
  db.auth_nonces.Pairwise (fun a b => a.wallet_address ≠ b.wallet_address)

/-! ## Error taxonomy (spec §7 names, with the HTTP statuses of `auth.py`) -/

/-- Errors raised by the auth route handlers. -/
inductive AuthError where
  | NonceNotFound            -- 400 "Nonce not found. Please request a new nonce."
  | NonceExpired             -- 400 "Nonce has expired. Please request a new nonce."
  | NonceMismatch            -- 400 "Invalid nonce"
  | InvalidSignature         -- 401 "Invalid signature"
  | MissingRegistrationData  -- 400 "User data required for new registration"
  | UsernameTaken            -- 409 "Username already taken"
  | InvalidRefreshToken      -- 401 "Invalid refresh token"
  | Unauthenticated          -- 401 (invalid token / invalid payload / user not found)
  | InternalError            -- 500 catch-all
deriving DecidableEq, Repr

/-- HTTP status code of each error. -/
def AuthError.httpStatus : AuthError → Nat
  | .NonceNotFound => 400
  | .NonceExpired => 400
  | .NonceMismatch => 400
  | .InvalidSignature => 401
  | .MissingRegistrationData => 400
  | .UsernameTaken => 409
  | .InvalidRefreshToken => 401
  | .Unauthenticated => 401
  | .InternalError => 500

/-! ## Route handlers (`auth.py` lines 90-368) -/

/-- `NonceResponse` body. -/
structure NonceResponse where
  nonce : String
  message : String
  wallet_address : String
deriving DecidableEq, Repr

/-- `AuthResponse` body.  `token_type` is always `"bearer"` and is omitted. -/
structure AuthResponse where
  access_token : Token
  refresh_token : Token
  expires_in : Nat
  user : UserResponse
  is_new_user : Bool := false
deriving DecidableEq, Repr

/-- `POST /request-nonce` (`auth.py` lines 147-174): lowercase the wallet
address, draw a nonce, build the challenge message, and upsert the nonce
record with a 5-minute expiry, keyed by the lowercased wallet. -/
def request_nonce (db : DB) (now : Nat) (entropy : List Nat)
    (req_wallet : String) : DB × NonceResponse :=
  let wallet_address := lower req_wallet
  let nonce := generate_nonce entropy
  let message := create_auth_message wallet_address nonce now
  let doc : NonceDoc :=
    { wallet_address := wallet_address, nonce := nonce, message := message,
      created_at := now, expires_at := now + 300 }
  let nonces :=
    if (db.auth_nonces.find? fun d => decide (d.wallet_address = wallet_address)).isSome then
      updateFirst (fun d => decide (d.wallet_address = wallet_address))
        (fun d => { d with nonce := nonce, message := message,
                           created_at := now, expires_at := now + 300 })
        db.auth_nonces
    else
      db.auth_nonces ++ [doc]
  ({ db with auth_nonces := nonces },
   { nonce := nonce, message := message, wallet_address := wallet_address })

/-- The fresh user document built in the registration branch of
`verify-signature` (`auth.py` lines 240-248); all other fields take the
`UserInDB` defaults. -/
def newUserDoc (fresh_id : Nat) (wallet_address : String) (ud : UserCreate)
    (now : Nat) : UserDoc :=
  { id := fresh_id
    wallet_address := wallet_address
    username := lower ud.username
    display_name := ud.display_name
    bio := ud.bio
    email := ud.email
    created_at := now
    last_login := some now }

/-- Shared tail of `verify-signature` (`auth.py` lines 260-281): delete the
consumed nonce, mint the token pair, persist the refresh token on the user's
record, and build the response from the already-read `user` document. -/
def finishLogin (db : DB) (now : Nat) (wallet_address : String)
    (users1 : List UserDoc) (user : UserDoc) (is_new_user : Bool) :
    Except AuthError (DB × AuthResponse) :=
  .ok ({ auth_nonces := deleteFirst (fun d => decide (d.wallet_address = wallet_address))
           db.auth_nonces,
         users := updateFirst (fun u => decide (u.id = user.id))
           (fun u => { u with refresh_token := some (create_refresh_token now wallet_address) })
           users1 },
       { access_token := create_access_token now wallet_address,
         refresh_token := create_refresh_token now wallet_address,
         expires_in := access_token_expire_minutes * 60,
         user := toUserResponse user, is_new_user := is_new_user })

/-- `POST /verify-signature` (`auth.py` lines 182-289).  `fresh_id` is the
`_id` the driver assigns on `insert_one`.  The response's `user` field is
built from the document as read (the stale local `user` dict), so it predates
the refresh-token write, and for an existing user also the last-login
write. -/
def verify_signature_and_login (recover : String → String → Option String)
    (db : DB) (now : Nat) (fresh_id : Nat) (req : SignatureRequest) :
    Except AuthError (DB × AuthResponse) :=
  let wallet_address := lower req.wallet_address
  match db.auth_nonces.find? fun d => decide (d.wallet_address = wallet_address) with
  | none => .error .NonceNotFound
  | some nonce_doc =>
    if now > nonce_doc.expires_at then .error .NonceExpired
    else if nonce_doc.nonce ≠ req.nonce then .error .NonceMismatch
    else if !verify_signature recover nonce_doc.message req.signature wallet_address then
      .error .InvalidSignature
    else
      match db.users.find? fun u => decide (u.wallet_address = wallet_address) with
      | none =>
        match req.user_data with
        | none => .error .MissingRegistrationData
        | some ud =>
          if (db.users.find? fun u => decide (u.username = lower ud.username)).isSome then
            .error .UsernameTaken
          else
            let users1 := db.users ++ [newUserDoc fresh_id wallet_address ud now]
            match users1.find? fun u => decide (u.id = fresh_id) with
            | none => .error .InternalError
            | some user => finishLogin db now wallet_address users1 user true
      | some user =>
        finishLogin db now wallet_address
          (updateFirst (fun u => decide (u.id = user.id))
            (fun u => { u with last_login := some now }) db.users)
          user false

/-- `POST /refresh` (`auth.py` lines 291-343): verify the refresh token's
signature/expiry/type, look up a user whose wallet is the token's subject and
whose stored refresh token equals the supplied one, then rotate.  When the
payload carries no `sub`, the Mongo query `{"wallet_address": None, ...}`
matches no user document (every stored wallet address is a string), so the
lookup fails.  The response's `user` field is again the stale pre-rotation
document. -/
def refresh_token_route (db : DB) (now : Nat) (req_refresh : Token) :
    Except AuthError (DB × AuthResponse) :=
  match verify_token now req_refresh "refresh" with
  | none => .error .InvalidRefreshToken
  | some payload =>
    match payload.sub with
    | none => .error .InvalidRefreshToken
    | some wallet_address =>
      match db.users.find? fun u =>
          decide (u.wallet_address = wallet_address ∧ u.refresh_token = some req_refresh) with
      | none => .error .InvalidRefreshToken
      | some user =>
        let new_access_token := create_access_token now wallet_address
        let new_refresh_token := create_refresh_token now wallet_address
        let users1 := updateFirst (fun u => decide (u.id = user.id))
          (fun u => { u with refresh_token := some new_refresh_token }) db.users
        .ok ({ db with users := users1 },
             { access_token := new_access_token, refresh_token := new_refresh_token,
               expires_in := access_token_expire_minutes * 60,
               user := toUserResponse user, is_new_user := false })

/-- `get_current_user` (`auth.py` lines 90-144): the bearer-auth dependency of
every protected route.  Verifies the access token, extracts the subject,
loads the user by the lowercased wallet address, stamps `last_login`, and
returns the user document as read (before the stamp). -/
def get_current_user (db : DB) (now : Nat) (token : Token) :
    Except AuthError (DB × UserDoc) :=
  match verify_token now token "access" with
  | none => .error .Unauthenticated
  | some payload =>
    match payload.sub with
    | none => .error .Unauthenticated
    | some wallet_address =>
      match db.users.find? fun u => decide (u.wallet_address = lower wallet_address) with
      | none => .error .Unauthenticated
      | some user =>
        let users1 := updateFirst (fun u => decide (u.id = user.id))
          (fun u => { u with last_login := some now }) db.users
        .ok ({ db with users := users1 }, user)

/-- `GET /me` (`auth.py` lines 365-368): resolve the current user and project
the document onto `UserResponse`. -/
def get_current_user_info (db : DB) (now : Nat) (token : Token) :
    Except AuthError (DB × UserResponse) :=
  match get_current_user db now token with
  | .error e => .error e
  | .ok (db1, user) => .ok (db1, toUserResponse user)

/-! ## Post metrics (`src/backend/app/models/post.py`) -/

/-- `VoteType` enumeration. -/
inductive VoteType where
  | up | down | viral
deriving DecidableEq, Repr

/-- `PostMetrics` with the defaults of `post.py` lines 47-59 (float engagement
fields carried as `Int`). -/
structure PostMetrics where
  up_votes : Nat := 0
  down_votes : Nat := 0
  viral_votes : Nat := 0
  total_votes : Nat := 0
  viral_score : Nat := 0
  views : Nat := 0
  shares : Nat := 0
  comments_count : Nat := 0
  tokens_earned : Int := 0
  engagement_rate : Int := 0
  virality_index : Int := 0
deriving DecidableEq, Repr

/-- Modelled from the spec: the vote-casting metric update of the content
subsystem (spec §4.2); the posts/votes router is not among the provided
sources.  Casting a vote "recomputes the post's aggregate metrics (vote
counts, ...)": the counter of the cast type is incremented and `total_votes`
is recomputed as the sum of the three counters. -/
def castVote (m : PostMetrics) (v : VoteType) : PostMetrics :=
  let m1 :=
    match v with
    | .up => { m with up_votes := m.up_votes + 1 }
    | .down => { m with down_votes := m.down_votes + 1 }
    | .viral => { m with viral_votes := m.viral_votes + 1 }
  { m1 with total_votes := m1.up_votes + m1.down_votes + m1.viral_votes }

/-- The vote-count invariant of spec §3. -/
def metricsConsistent (m : PostMetrics) : Prop :=
  m.total_votes = m.up_votes + m.down_votes + m.viral_votes

instance : DecidablePred metricsConsistent := fun m =>
  inferInstanceAs (Decidable (m.total_votes = _))

/-! ## Supporting lemmas about the collection operations -/

/-- Say at most one document matches `p`: then every element of
`updateFirst p f l` is either an untouched non-match from `l` or the image of
the matching document. -/
theorem mem_updateFirst {p : α → Bool} {f : α → α} {l : List α}
    (hu : l.Pairwise fun a b => ¬(p a = true ∧ p b = true)) {x : α}
    (hx : x ∈ updateFirst p f l) :
    (x ∈ l ∧ p x = false) ∨ ∃ y ∈ l, p y = true ∧ x = f y := by
  induction l with
  | nil => simp [updateFirst] at hx
  | cons a as ih =>
    rw [updateFirst] at hx
    rcases List.pairwise_cons.mp hu with ⟨ha, htail⟩
    by_cases hpa : p a = true
    · rw [if_pos hpa] at hx
      rcases List.mem_cons.mp hx with rfl | hxs
      · exact .inr ⟨a, List.mem_cons_self a as, hpa, rfl⟩
      · refine .inl ⟨List.mem_cons_of_mem a hxs, ?_⟩
        by_contra hpx
        exact ha x hxs ⟨hpa, Bool.of_not_eq_false hpx⟩
    · rw [if_neg hpa] at hx
      rcases List.mem_cons.mp hx with rfl | hxs
      · exact .inl ⟨List.mem_cons_self x as, Bool.eq_false_iff.mpr hpa⟩
      · rcases ih htail hxs with ⟨hm, hp⟩ | ⟨y, hy, hpy, rfl⟩
        · exact .inl ⟨List.mem_cons_of_mem a hm, hp⟩
        · exact .inr ⟨y, List.mem_cons_of_mem a hy, hpy, rfl⟩

/-- With at most one match, the image of the matching document is in the
updated list. -/
theorem self_mem_updateFirst {p : α → Bool} {f : α → α} {l : List α}
    (hu : l.Pairwise fun a b => ¬(p a = true ∧ p b = true)) {y : α}
    (hy : y ∈ l) (hpy : p y = true) :
    f y ∈ updateFirst p f l := by
  induction l with
  | nil => simp at hy
  | cons a as ih =>
    rcases List.pairwise_cons.mp hu with ⟨ha, htail⟩
    rw [updateFirst]
    by_cases hpa : p a = true
    · rw [if_pos hpa]
      rcases List.mem_cons.mp hy with rfl | hys
      · exact List.mem_cons_self _ _
      · exact absurd ⟨hpa, hpy⟩ (ha y hys)
    · rw [if_neg hpa]
      rcases List.mem_cons.mp hy with rfl | hys
      · exact absurd hpy hpa
      · exact List.mem_cons_of_mem a (ih htail hys)

/-- With at most one match, two matching members coincide. -/
theorem unique_match {p : α → Bool} {l : List α}
    (hu : l.Pairwise fun a b => ¬(p a = true ∧ p b = true)) {x y : α}
    (hx : x ∈ l) (hy : y ∈ l) (hpx : p x = true) (hpy : p y = true) : x = y := by
  by_contra hne
  have hsym : Symmetric fun a b : α => ¬(p a = true ∧ p b = true) := by
    intro a b hab ⟨h1, h2⟩
    exact hab ⟨h2, h1⟩
  exact (hu.forall hsym) hx hy hne ⟨hpx, hpy⟩

/-- With at most one match, deleting the first match leaves no match. -/
theorem find?_deleteFirst {p : α → Bool} {l : List α}
    (hu : l.Pairwise fun a b => ¬(p a = true ∧ p b = true)) :
    (deleteFirst p l).find? p = none := by
  induction l with
  | nil => simp [deleteFirst]
  | cons a as ih =>
    rcases List.pairwise_cons.mp hu with ⟨ha, htail⟩
    rw [deleteFirst]
    by_cases hpa : p a = true
    · rw [if_pos hpa]
      refine List.find?_eq_none.mpr fun x hx hpx => ?_
      exact ha x hx ⟨hpa, hpx⟩
    · rw [if_neg hpa, List.find?_cons, Bool.eq_false_iff.mpr hpa]
      exact ih htail

/-- `updateFirst` is invisible through any projection the update preserves. -/
theorem map_updateFirst {g : α → β} {p : α → Bool} {f : α → α}
    (hf : ∀ x, g (f x) = g x) (l : List α) :
    (updateFirst p f l).map g = l.map g := by
  induction l with
  | nil => rfl
  | cons a as ih =>
    rw [updateFirst]
    by_cases hpa : p a = true
    · rw [if_pos hpa]; simp [hf]
    · rw [if_neg hpa]; simp [ih]

/-- `updateFirst` preserves length. -/
theorem length_updateFirst (p : α → Bool) (f : α → α) (l : List α) :
    (updateFirst p f l).length = l.length := by
  induction l with
  | nil => rfl
  | cons a as ih =>
    rw [updateFirst]
    by_cases hpa : p a = true
    · rw [if_pos hpa]; simp
    · rw [if_neg hpa]; simp [ih]

/-- Without any uniqueness assumption: every element of `updateFirst p f l`
is an element of `l` or the image of a matching element of `l`. -/
theorem mem_updateFirst_weak {p : α → Bool} {f : α → α} {l : List α} {x : α}
    (hx : x ∈ updateFirst p f l) :
    x ∈ l ∨ ∃ y ∈ l, p y = true ∧ x = f y := by
  induction l with
  | nil => simp [updateFirst] at hx
  | cons a as ih =>
    rw [updateFirst] at hx
    by_cases hpa : p a = true
    · rw [if_pos hpa] at hx
      rcases List.mem_cons.mp hx with rfl | hxs
      · exact .inr ⟨a, List.mem_cons_self a as, hpa, rfl⟩
      · exact .inl (List.mem_cons_of_mem a hxs)
    · rw [if_neg hpa] at hx
      rcases List.mem_cons.mp hx with rfl | hxs
      · exact .inl (List.mem_cons_self x as)
      · rcases ih hxs with hm | ⟨y, hy, hpy, rfl⟩
        · exact .inl (List.mem_cons_of_mem a hm)
        · exact .inr ⟨y, List.mem_cons_of_mem a hy, hpy, rfl⟩

/-- Unfolding of the executable well-formedness check. -/
theorem DB.wf_iff (db : DB) :
    db.wf = true ↔
      (db.users.Pairwise fun a b => a.id ≠ b.id ∧ a.wallet_address ≠ b.wallet_address) ∧
      (db.auth_nonces.Pairwise fun a b => a.wallet_address ≠ b.wallet_address) := by
  simp [DB.wf]

/-- Users pairwise-unique under the "same id" predicate. -/
theorem users_unique_id {db : DB} (h : db.wf = true) (uid : Nat) :
    db.users.Pairwise fun a b =>
      ¬(decide (a.id = uid) = true ∧ decide (b.id = uid) = true) := by
  refine ((DB.wf_iff db).mp h).1.imp fun hab ⟨h1, h2⟩ => ?_
  exact hab.1 ((of_decide_eq_true h1).trans (of_decide_eq_true h2).symm)

/-- Users pairwise-unique under any predicate that pins the wallet address. -/
theorem users_unique_wallet {db : DB} (h : db.wf = true) (q : UserDoc → Bool)
    (hq : ∀ u, q u = true → u.wallet_address = w) :
    db.users.Pairwise fun a b => ¬(q a = true ∧ q b = true) := by
  refine ((DB.wf_iff db).mp h).1.imp fun hab ⟨h1, h2⟩ => ?_
  exact hab.2 ((hq _ h1).trans (hq _ h2).symm)

/-- Nonce documents pairwise-unique under the "same wallet" predicate. -/
theorem nonces_unique_wallet {db : DB} (h : db.wf = true) (w : String) :
    db.auth_nonces.Pairwise fun a b =>
      ¬(decide (a.wallet_address = w) = true ∧ decide (b.wallet_address = w) = true) := by
  refine ((DB.wf_iff db).mp h).2.imp fun hab ⟨h1, h2⟩ => ?_
  exact hab ((of_decide_eq_true h1).trans (of_decide_eq_true h2).symm)

/-! ## Secret-erasure helpers for the response hyperproperty -/

/-- Erase the two authentication secrets of a stored user document. -/
def stripSecrets (u : UserDoc) : UserDoc :=
  { u with nonce := none, refresh_token := none }

/-- The externally visible body of `GET /me`, dropping the database effect. -/
def meResponse (db : DB) (now : Nat) (token : Token) : Except AuthError UserResponse :=
  match get_current_user_info db now token with
  | .error e => .error e
  | .ok (_, r) => .ok r

/-! ## Claim theorems -/

/-- C9: for every post, the metrics invariant `total_votes = up_votes +
down_votes + viral_votes` holds for freshly initialized `PostMetrics` and
holds after any vote-casting metric update. -/
theorem C9_vote_count_invariant :
    metricsConsistent {} ∧
    ∀ (m : PostMetrics) (v : VoteType), metricsConsistent (castVote m v) := by
  refine ⟨rfl, fun m v => ?_⟩
  cases v <;> rfl

/-- C10: API user profiles carry no authentication secrets: the projection
`UserResponse(**user)` is unchanged by any values of the stored `nonce` and
`refresh_token`, and the `GET /me` response is identical on any two databases
whose user documents differ only in those two secret fields. -/
theorem C10_no_secret_leak :
    (∀ (u : UserDoc) (n : Option String) (r : Option Token),
      toUserResponse { u with nonce := n, refresh_token := r } = toUserResponse u) ∧
    (∀ (db : DB) (now : Nat) (token : Token) (f : UserDoc → UserDoc),
      (∀ u, stripSecrets (f u) = stripSecrets u) →
      meResponse { db with users := db.users.map f } now token = meResponse db now token) := by
  constructor
  · intro u n r; rfl
  · intro db now token f hf
    have hwallet : ∀ u : UserDoc, (f u).wallet_address = u.wallet_address := by
      intro u
      have := congrArg UserDoc.wallet_address (hf u)
      simpa [stripSecrets] using this
    have hresp : ∀ u : UserDoc, toUserResponse (f u) = toUserResponse u := by
      intro u
      have h1 : toUserResponse (stripSecrets (f u)) = toUserResponse (f u) := rfl
      have h2 : toUserResponse (stripSecrets u) = toUserResponse u := rfl
      rw [← h1, ← h2, hf u]
    simp only [meResponse, get_current_user_info, get_current_user]
    cases hv : verify_token now token "access" with
    | none => rfl
    | some payload =>
      dsimp only
      cases hs : payload.sub with
      | none => rfl
      | some w =>
        dsimp only
        rw [List.find?_map]
        have hpred : ((fun u : UserDoc => decide (u.wallet_address = lower w)) ∘ f)
            = fun u : UserDoc => decide (u.wallet_address = lower w) := by
          funext u
          simp [Function.comp, hwallet u]
        rw [hpred]
        cases db.users.find? fun u : UserDoc => decide (u.wallet_address = lower w) with
        | none => rfl
        | some user => simp [hresp user]

/-- C6: `verify_signature` succeeds exactly when the address recovered from
the message and signature lowercase-equals the claimed wallet address; it
returns `false` (rather than propagating an exception) both on recovery error
and on mismatch, so a signature whose recovery over an altered message does
not yield the claimed address does not verify. -/
theorem C6_signature_verification (recover : String → String → Option String)
    (m s w : String) :
    (verify_signature recover m s w = true ↔
      ∃ a, recover m s = some a ∧ lower a = lower w) ∧
    (∀ a, recover m s = some a → lower a ≠ lower w →
      verify_signature recover m s w = false) ∧
    (recover m s = none → verify_signature recover m s w = false) ∧
    (∀ m' : String, (∀ a, recover m' s = some a → lower a ≠ lower w) →
      verify_signature recover m' s w = false) := by
  refine ⟨?_, ?_, ?_, ?_⟩
  · unfold verify_signature
    cases hr : recover m s with
    | none => simp
    | some a => simp [beq_iff_eq]
  · intro a ha hne
    unfold verify_signature
    rw [ha]
    simpa using hne
  · intro h
    unfold verify_signature
    rw [h]
  · intro m' h
    unfold verify_signature
    cases hr : recover m' s with
    | none => rfl
    | some a => simpa using h a hr

/-! ## Branch characterizations of `verify-signature` -/

/-- The run fails with `NonceNotFound` exactly when no nonce document is
stored for the lowercased wallet. -/
theorem vsl_nonce_not_found_iff (recover : String → String → Option String)
    (db : DB) (now fresh_id : Nat) (req : SignatureRequest) :
    verify_signature_and_login recover db now fresh_id req = .error .NonceNotFound ↔
      db.auth_nonces.find?
        (fun d => decide (d.wallet_address = lower req.wallet_address)) = none := by
  simp only [verify_signature_and_login]
  cases hf : db.auth_nonces.find?
      fun d => decide (d.wallet_address = lower req.wallet_address) with
  | none => simp
  | some d =>
    dsimp only
    constructor
    · intro h
      exfalso
      split at h
      · simp at h
      · split at h
        · simp at h
        · split at h
          · simp at h
          · split at h
            · split at h
              · simp at h
              · split at h
                · simp at h
                · split at h
                  · simp at h
                  · simp [finishLogin] at h
            · simp [finishLogin] at h
    · intro h
      exact Option.noConfusion h

/-- An expired nonce record fails with `NonceExpired`, whatever the
signature. -/
theorem vsl_expired (recover : String → String → Option String)
    (db : DB) (now fresh_id : Nat) (req : SignatureRequest) (d : NonceDoc)
    (hf : db.auth_nonces.find?
      (fun x => decide (x.wallet_address = lower req.wallet_address)) = some d)
    (hexp : now > d.expires_at) :
    verify_signature_and_login recover db now fresh_id req = .error .NonceExpired := by
  simp only [verify_signature_and_login]
  rw [hf]
  dsimp only
  rw [if_pos hexp]

/-- A live record whose nonce differs from the supplied one fails with
`NonceMismatch`. -/
theorem vsl_mismatch (recover : String → String → Option String)
    (db : DB) (now fresh_id : Nat) (req : SignatureRequest) (d : NonceDoc)
    (hf : db.auth_nonces.find?
      (fun x => decide (x.wallet_address = lower req.wallet_address)) = some d)
    (hexp : ¬ now > d.expires_at) (hne : d.nonce ≠ req.nonce) :
    verify_signature_and_login recover db now fresh_id req = .error .NonceMismatch := by
  simp only [verify_signature_and_login]
  rw [hf]
  dsimp only
  rw [if_neg hexp, if_pos hne]

/-- With a live, matching nonce, a failed signature check yields
`InvalidSignature`. -/
theorem vsl_bad_signature (recover : String → String → Option String)
    (db : DB) (now fresh_id : Nat) (req : SignatureRequest) (d : NonceDoc)
    (hf : db.auth_nonces.find?
      (fun x => decide (x.wallet_address = lower req.wallet_address)) = some d)
    (hexp : ¬ now > d.expires_at) (hn : d.nonce = req.nonce)
    (hsig : verify_signature recover d.message req.signature
      (lower req.wallet_address) = false) :
    verify_signature_and_login recover db now fresh_id req = .error .InvalidSignature := by
  simp only [verify_signature_and_login]
  rw [hf]
  dsimp only
  rw [if_neg hexp, if_neg (by simp [hn]), hsig]
  rfl

/-- With a live nonce and valid signature, a wallet with no user record and
no registration data fails with `MissingRegistrationData`. -/
theorem vsl_missing_registration (recover : String → String → Option String)
    (db : DB) (now fresh_id : Nat) (req : SignatureRequest) (d : NonceDoc)
    (hf : db.auth_nonces.find?
      (fun x => decide (x.wallet_address = lower req.wallet_address)) = some d)
    (hexp : ¬ now > d.expires_at) (hn : d.nonce = req.nonce)
    (hsig : verify_signature recover d.message req.signature
      (lower req.wallet_address) = true)
    (huser : db.users.find?
      (fun u => decide (u.wallet_address = lower req.wallet_address)) = none)
    (hdata : req.user_data = none) :
    verify_signature_and_login recover db now fresh_id req =
      .error .MissingRegistrationData := by
  simp [verify_signature_and_login, hf, hexp, hn, hsig, huser, hdata]

/-- With a live nonce and valid signature, registering an already-taken
username fails with `UsernameTaken` (HTTP 409 Conflict). -/
theorem vsl_username_taken (recover : String → String → Option String)
    (db : DB) (now fresh_id : Nat) (req : SignatureRequest) (d : NonceDoc)
    (ud : UserCreate)
    (hf : db.auth_nonces.find?
      (fun x => decide (x.wallet_address = lower req.wallet_address)) = some d)
    (hexp : ¬ now > d.expires_at) (hn : d.nonce = req.nonce)
    (hsig : verify_signature recover d.message req.signature
      (lower req.wallet_address) = true)
    (huser : db.users.find?
      (fun u => decide (u.wallet_address = lower req.wallet_address)) = none)
    (hdata : req.user_data = some ud)
    (htaken : (db.users.find?
      fun u => decide (u.username = lower ud.username)).isSome = true) :
    verify_signature_and_login recover db now fresh_id req = .error .UsernameTaken := by
  simp [verify_signature_and_login, hf, hexp, hn, hsig, huser, hdata, htaken]

/-- With a live nonce, valid signature, no user record, registration data and
a free username, a single fresh user document is inserted and the run
converges to `finishLogin` on it with `is_new_user = true`. -/
theorem vsl_new_user (recover : String → String → Option String)
    (db : DB) (now fresh_id : Nat) (req : SignatureRequest) (d : NonceDoc)
    (ud : UserCreate)
    (hf : db.auth_nonces.find?
      (fun x => decide (x.wallet_address = lower req.wallet_address)) = some d)
    (hexp : ¬ now > d.expires_at) (hn : d.nonce = req.nonce)
    (hsig : verify_signature recover d.message req.signature
      (lower req.wallet_address) = true)
    (huser : db.users.find?
      (fun u => decide (u.wallet_address = lower req.wallet_address)) = none)
    (hdata : req.user_data = some ud)
    (hfree : (db.users.find?
      fun u => decide (u.username = lower ud.username)) = none)
    (hfresh : ∀ u ∈ db.users, u.id ≠ fresh_id) :
    verify_signature_and_login recover db now fresh_id req =
      finishLogin db now (lower req.wallet_address)
        (db.users ++ [newUserDoc fresh_id (lower req.wallet_address) ud now])
        (newUserDoc fresh_id (lower req.wallet_address) ud now) true := by
  have h1 : db.users.find? (fun u => decide (u.id = fresh_id)) = none :=
    List.find?_eq_none.mpr fun u hu => by simpa using hfresh u hu
  have happ : (db.users ++ [newUserDoc fresh_id (lower req.wallet_address) ud now]).find?
      (fun u => decide (u.id = fresh_id)) =
      some (newUserDoc fresh_id (lower req.wallet_address) ud now) := by
    rw [List.find?_append, h1]
    simp [newUserDoc]
  simp [verify_signature_and_login, hf, hexp, hn, hsig, huser, hdata, hfree, happ]

/-- With a live nonce, valid signature and an existing user record, the run
stamps `last_login` and converges to `finishLogin` with
`is_new_user = false`. -/
theorem vsl_existing_user (recover : String → String → Option String)
    (db : DB) (now fresh_id : Nat) (req : SignatureRequest) (d : NonceDoc)
    (user : UserDoc)
    (hf : db.auth_nonces.find?
      (fun x => decide (x.wallet_address = lower req.wallet_address)) = some d)
    (hexp : ¬ now > d.expires_at) (hn : d.nonce = req.nonce)
    (hsig : verify_signature recover d.message req.signature
      (lower req.wallet_address) = true)
    (huser : db.users.find?
      (fun u => decide (u.wallet_address = lower req.wallet_address)) = some user) :
    verify_signature_and_login recover db now fresh_id req =
      finishLogin db now (lower req.wallet_address)
        (updateFirst (fun u => decide (u.id = user.id))
          (fun u => { u with last_login := some now }) db.users)
        user false := by
  simp [verify_signature_and_login, hf, hexp, hn, hsig, huser]

/-- Every successful run deleted the consumed nonce record: the resulting
`auth_nonces` collection is the original one with the first record for the
lowercased wallet removed. -/
theorem vsl_ok_nonces (recover : String → String → Option String)
    (db : DB) (now fresh_id : Nat) (req : SignatureRequest)
    (db' : DB) (resp : AuthResponse)
    (h : verify_signature_and_login recover db now fresh_id req = .ok (db', resp)) :
    db'.auth_nonces = deleteFirst
      (fun x => decide (x.wallet_address = lower req.wallet_address))
      db.auth_nonces := by
  simp only [verify_signature_and_login] at h
  split at h
  · simp at h
  · split at h
    · simp at h
    · split at h
      · simp at h
      · split at h
        · simp at h
        · split at h
          · split at h
            · simp at h
            · split at h
              · simp at h
              · split at h
                · simp at h
                · simp only [finishLogin, Except.ok.injEq, Prod.mk.injEq] at h
                  rw [← h.1]
          · simp only [finishLogin, Except.ok.injEq, Prod.mk.injEq] at h
            rw [← h.1]

/-! ## Concrete fixtures used by the witnesses -/

/-- A lowercase 42-character 0x-prefixed wallet address. -/
def walletA : String := "0xaaaaaaaaaaaaaaaaaaaaaaaaaaaaaaaaaaaaaaaa"

/-- A recovery oracle standing for a signer who owns `walletA`: address
recovery over any message/signature pair yields `walletA`. -/
def recover0 : String → String → Option String := fun _ _ => some walletA

/-- A stored user for `walletA`. -/
def userA : UserDoc :=
  { id := 1, wallet_address := walletA, username := "alice", created_at := 0 }

/-- An outstanding nonce record for `walletA`, expiring at 300. -/
def nonceDocA : NonceDoc :=
  { wallet_address := walletA, nonce := "aabbccdd", message := "challenge",
    created_at := 0, expires_at := 300 }

/-- A signature request presenting the outstanding nonce for `walletA`. -/
def reqA : SignatureRequest :=
  { wallet_address := walletA, signature := "sig", nonce := "aabbccdd" }

/-- Database with the nonce record and user above. -/
def dbA : DB := { auth_nonces := [nonceDocA], users := [userA] }

/-! ## Claim theorems: verify-signature error ordering and nonce single-use -/

/-- C3: the verify-signature checks run in order — a missing nonce record for
the lowercased wallet fails with `NonceNotFound` (and only then); an expired
record fails with `NonceExpired` whatever the signature; a live record whose
nonce differs from the supplied one fails with `NonceMismatch`; only then is
the signature verified, failing with `InvalidSignature` on mismatch. -/
theorem C3_check_order (recover : String → String → Option String)
    (db : DB) (now fresh_id : Nat) (req : SignatureRequest) :
    (verify_signature_and_login recover db now fresh_id req = .error .NonceNotFound ↔
      db.auth_nonces.find?
        (fun d => decide (d.wallet_address = lower req.wallet_address)) = none) ∧
    (∀ d, db.auth_nonces.find?
        (fun x => decide (x.wallet_address = lower req.wallet_address)) = some d →
      now > d.expires_at →
      verify_signature_and_login recover db now fresh_id req = .error .NonceExpired) ∧
    (∀ d, db.auth_nonces.find?
        (fun x => decide (x.wallet_address = lower req.wallet_address)) = some d →
      ¬ now > d.expires_at → d.nonce ≠ req.nonce →
      verify_signature_and_login recover db now fresh_id req = .error .NonceMismatch) ∧
    (∀ d, db.auth_nonces.find?
        (fun x => decide (x.wallet_address = lower req.wallet_address)) = some d →
      ¬ now > d.expires_at → d.nonce = req.nonce →
      verify_signature recover d.message req.signature (lower req.wallet_address) = false →
      verify_signature_and_login recover db now fresh_id req = .error .InvalidSignature) :=
  ⟨vsl_nonce_not_found_iff recover db now fresh_id req,
   fun d hf hexp => vsl_expired recover db now fresh_id req d hf hexp,
   fun d hf hexp hne => vsl_mismatch recover db now fresh_id req d hf hexp hne,
   fun d hf hexp hn hsig => vsl_bad_signature recover db now fresh_id req d hf hexp hn hsig⟩

/-- C3 witness: on the concrete database, presenting the nonce at time 400
(past the expiry 300) fails with `NonceExpired` even though the recovery
oracle would accept the signature. -/
theorem C3_check_order_witness :
    verify_signature_and_login recover0 dbA 400 99 reqA = .error .NonceExpired :=
  (C3_check_order recover0 dbA 400 99 reqA).2.1 nonceDocA (by decide) (by decide)

/-- C2: after every successful verify-signature call, no nonce record remains
for that wallet, and an immediately repeated call with the same request fails
with `NonceNotFound`. -/
theorem C2_nonce_single_use (recover : String → String → Option String)
    (db : DB) (now fresh_id : Nat) (req : SignatureRequest) (h : db.wf = true) :
    ∀ db' resp,
      verify_signature_and_login recover db now fresh_id req = .ok (db', resp) →
      db'.auth_nonces.find?
        (fun d => decide (d.wallet_address = lower req.wallet_address)) = none ∧
      ∀ now2 fresh_id2,
        verify_signature_and_login recover db' now2 fresh_id2 req =
          .error .NonceNotFound := by
  intro db' resp hrun
  have hnonces := vsl_ok_nonces recover db now fresh_id req db' resp hrun
  have hnone : db'.auth_nonces.find?
      (fun d => decide (d.wallet_address = lower req.wallet_address)) = none := by
    rw [hnonces]
    exact find?_deleteFirst (nonces_unique_wallet h (lower req.wallet_address))
  exact ⟨hnone, fun now2 fresh_id2 =>
    (vsl_nonce_not_found_iff recover db' now2 fresh_id2 req).mpr hnone⟩

/-- C2 witness: the concrete run at time 5 succeeds; afterwards the nonce
record is gone and the repeated call fails with `NonceNotFound`. -/
theorem C2_nonce_single_use_witness :
    dbA.wf = true ∧
    (verify_signature_and_login recover0 dbA 5 99 reqA).isOk = true ∧
    (verify_signature_and_login recover0 dbA 5 99 reqA).toOption.map
      (fun p => (p.1.auth_nonces.find?
          fun d => decide (d.wallet_address = lower reqA.wallet_address),
        verify_signature_and_login recover0 p.1 6 100 reqA)) =
      some (none, .error .NonceNotFound) := by
  refine ⟨by decide, by decide, ?_⟩
  have h := C2_nonce_single_use recover0 dbA 5 99 reqA (by decide)
  cases hrun : verify_signature_and_login recover0 dbA 5 99 reqA with
  | error e =>
    have hok : (verify_signature_and_login recover0 dbA 5 99 reqA).isOk = true := by decide
    rw [hrun] at hok
    exact Bool.noConfusion hok
  | ok p =>
    obtain ⟨h1, h2⟩ := h p.1 p.2 hrun
    simp only [Except.toOption, Option.map_some']
    rw [h1, h2 6 100]

/-- C6 witness: with the `walletA` recovery oracle, verification succeeds for
`walletA` and fails for a different claimed address. -/
theorem C6_signature_verification_witness :
    verify_signature recover0 "challenge" "sig" walletA = true ∧
    verify_signature recover0 "challenge" "sig" "0xbbbb" = false :=
  ⟨(C6_signature_verification recover0 "challenge" "sig" walletA).1.mpr
      ⟨walletA, rfl, rfl⟩,
   (C6_signature_verification recover0 "challenge" "sig" "0xbbbb").2.1 walletA rfl
      (by decide)⟩

/-- A secret-mangling function: changes only the stored secrets. -/
def secretsBump : UserDoc → UserDoc :=
  fun u => { u with nonce := some "leaked-nonce", refresh_token := none }

/-- C10 witness: mangling the stored secrets of every user leaves the
concrete `GET /me` response unchanged. -/
theorem C10_no_secret_leak_witness :
    meResponse { dbA with users := dbA.users.map secretsBump } 5
        (create_access_token 0 walletA) =
      meResponse dbA 5 (create_access_token 0 walletA) :=
  C10_no_secret_leak.2 dbA 5 (create_access_token 0 walletA) secretsBump fun _ => rfl

/-! ## Claim theorems: token refresh and rotation -/

/-- A successful `verify_token` returns the token's own subject claim. -/
theorem verify_token_sub {now : Nat} {t : Token} {ty : String} {p : Payload}
    (h : verify_token now t ty = some p) : p.sub = t.sub := by
  unfold verify_token at h
  split at h
  · cases h
    rfl
  · cases h

/-- C1: token refresh fails with `InvalidRefreshToken` (HTTP 401) exactly
when the supplied refresh token fails signature/expiry/type verification or
no user record for the token's subject wallet stores this exact token; on
success a fresh access/refresh pair is issued, the stored refresh token is
overwritten with the new one, and the old (rotated-away) token no longer
authorizes a further refresh. -/
theorem C1_refresh_rotation (db : DB) (now now2 : Nat) (t : Token)
    (h : db.wf = true) :
    (∀ e, refresh_token_route db now t = .error e → e = .InvalidRefreshToken) ∧
    AuthError.InvalidRefreshToken.httpStatus = 401 ∧
    (refresh_token_route db now t = .error .InvalidRefreshToken ↔
      ¬ ∃ w, verify_token now t "refresh" = some { sub := some w } ∧
        (db.users.find? fun u =>
          decide (u.wallet_address = w ∧ u.refresh_token = some t)).isSome = true) ∧
    (∀ db' resp, refresh_token_route db now t = .ok (db', resp) →
      ∃ w, t.sub = some w ∧
        resp.access_token = create_access_token now w ∧
        resp.refresh_token = create_refresh_token now w ∧
        (∃ u' ∈ db'.users, u'.wallet_address = w ∧
          u'.refresh_token = some (create_refresh_token now w)) ∧
        (t ≠ create_refresh_token now w →
          refresh_token_route db' now2 t = .error .InvalidRefreshToken)) := by
  refine ⟨?_, rfl, ?_, ?_⟩
  · -- every error is InvalidRefreshToken
    intro e he
    simp only [refresh_token_route] at he
    split at he
    · exact (Except.error.inj he).symm
    · split at he
      · exact (Except.error.inj he).symm
      · split at he
        · exact (Except.error.inj he).symm
        · simp at he
  · -- failure iff verification fails or no user stores this token
    constructor
    · intro herr
      rintro ⟨w, hw, hfind⟩
      simp only [refresh_token_route] at herr
      rw [hw] at herr
      dsimp only at herr
      obtain ⟨u, hu⟩ := Option.isSome_iff_exists.mp hfind
      rw [hu] at herr
      simp at herr
    · intro hne
      cases hv : verify_token now t "refresh" with
      | none => simp [refresh_token_route, hv]
      | some payload =>
        obtain ⟨psub⟩ := payload
        have hps : psub = t.sub := verify_token_sub hv
        cases hsub : psub with
        | none => simp [refresh_token_route, hv, hsub]
        | some w =>
          cases hfind : db.users.find?
              (fun u => decide (u.wallet_address = w ∧ u.refresh_token = some t)) with
          | some u =>
            exact absurd ⟨w, by rw [hv, hsub], by rw [hfind]; rfl⟩ hne
          | none =>
            simp only [refresh_token_route, hv, hsub, hfind]
  · -- success: rotation
    intro db' resp hok
    cases hv : verify_token now t "refresh" with
    | none => simp [refresh_token_route, hv] at hok
    | some payload =>
      obtain ⟨psub⟩ := payload
      have hps : psub = t.sub := verify_token_sub hv
      cases hsub : psub with
      | none => simp [refresh_token_route, hv, hsub] at hok
      | some w =>
        cases hfind : db.users.find?
            (fun u => decide (u.wallet_address = w ∧ u.refresh_token = some t)) with
        | none =>
          simp only [refresh_token_route, hv, hsub, hfind] at hok
          exact Except.noConfusion hok
        | some user =>
          simp only [refresh_token_route, hv, hsub, hfind] at hok
          rw [Except.ok.injEq, Prod.mk.injEq] at hok
          obtain ⟨hdb, hresp⟩ := hok
          have hquser := List.find?_some hfind
          have hmemu : user ∈ db.users := List.mem_of_find?_eq_some hfind
          have hwuser : user.wallet_address = w := (of_decide_eq_true hquser).1
          have hruser : user.refresh_token = some t := (of_decide_eq_true hquser).2
          refine ⟨w, by rw [← hps, hsub], by rw [← hresp], by rw [← hresp], ?_, ?_⟩
          · subst hdb
            have hpu : decide (user.id = user.id) = true := by simp
            have hm := self_mem_updateFirst
              (f := fun u => { u with refresh_token := some (create_refresh_token now w) })
              (users_unique_id h user.id) hmemu hpu
            exact ⟨_, hm, hwuser, rfl⟩
          · intro hnet
            subst hdb
            cases hv2 : verify_token now2 t "refresh" with
            | none => simp [refresh_token_route, hv2]
            | some payload2 =>
              obtain ⟨psub2⟩ := payload2
              have hps2 : psub2 = t.sub := verify_token_sub hv2
              have hsub2 : psub2 = some w := by rw [hps2, ← hps, hsub]
              have hnonef : (updateFirst (fun u => decide (u.id = user.id))
                  (fun u => { u with
                    refresh_token := some (create_refresh_token now w) })
                  db.users).find?
                    (fun u => decide (u.wallet_address = w ∧ u.refresh_token = some t))
                  = none := by
                refine List.find?_eq_none.mpr fun x hx hq => ?_
                have hqx := of_decide_eq_true hq
                rcases mem_updateFirst (users_unique_id h user.id) hx with
                  ⟨hxmem, hpfalse⟩ | ⟨y, hymem, hpy, rfl⟩
                · have hpairw := users_unique_wallet h
                    (fun u => decide (u.wallet_address = w ∧ u.refresh_token = some t))
                    (fun u hu => (of_decide_eq_true hu).1)
                  have hxeq : x = user := unique_match hpairw hxmem hmemu hq hquser
                  rw [hxeq] at hpfalse
                  simp at hpfalse
                · have hpu : decide (user.id = user.id) = true := by simp
                  have hyeq : y = user :=
                    unique_match (users_unique_id h user.id) hymem hmemu hpy hpu
                  subst hyeq
                  have : some (create_refresh_token now w) = some t := hqx.2
                  exact hnet (Option.some.inj this).symm
              simp only [refresh_token_route, hv2, hsub2, hnonef]

/-- The refresh token stored in the rotation witness database. -/
def t0 : Token := create_refresh_token 0 walletA

/-- A stored user currently holding refresh token `t0`. -/
def userR : UserDoc :=
  { id := 1, wallet_address := walletA, username := "alice", created_at := 0,
    refresh_token := some t0 }

/-- Database for the rotation witness. -/
def dbR : DB := { auth_nonces := [], users := [userR] }

/-- C1 witness: the concrete refresh at time 10 succeeds and rotates; the old
token `t0` then fails with `InvalidRefreshToken`. -/
theorem C1_refresh_rotation_witness :
    dbR.wf = true ∧
    (refresh_token_route dbR 10 t0).isOk = true ∧
    (refresh_token_route dbR 10 t0).toOption.map
      (fun p => refresh_token_route p.1 20 t0) =
      some (.error .InvalidRefreshToken) := by
  refine ⟨by decide, by decide, ?_⟩
  have h := C1_refresh_rotation dbR 10 20 t0 (by decide)
  cases hrun : refresh_token_route dbR 10 t0 with
  | error e =>
    have hok : (refresh_token_route dbR 10 t0).isOk = true := by decide
    rw [hrun] at hok
    exact Bool.noConfusion hok
  | ok p =>
    obtain ⟨w, hw, hacc, href, hmem, hrot⟩ := h.2.2.2 p.1 p.2 hrun
    have hww : some walletA = some w := hw
    have hww' : walletA = w := Option.some.inj hww
    have hne : t0 ≠ create_refresh_token 10 w := by
      rw [← hww']
      decide
    simp only [Except.toOption, Option.map_some']
    rw [hrot hne]

/-! ## Claim theorems: current-user resolution -/

/-- C5: the bearer-auth dependency validates the access token, extracts the
wallet from the token subject, loads the user by the lowercased wallet, and
stamps last-login; it fails with `Unauthenticated` (HTTP 401) exactly when
the token is invalid/expired, the payload lacks a subject, or no user exists
for the extracted wallet. -/
theorem C5_current_user (db : DB) (now : Nat) (token : Token)
    (h : db.wf = true) :
    (∀ e, get_current_user db now token = .error e → e = .Unauthenticated) ∧
    AuthError.Unauthenticated.httpStatus = 401 ∧
    ((∃ r, get_current_user db now token = .ok r) ↔
      ∃ w, verify_token now token "access" = some { sub := some w } ∧
        (db.users.find? fun u => decide (u.wallet_address = lower w)).isSome = true) ∧
    (∀ db' user, get_current_user db now token = .ok (db', user) →
      user ∈ db.users ∧
      (∃ w, token.sub = some w ∧ user.wallet_address = lower w) ∧
      { user with last_login := some now } ∈ db'.users ∧
      db'.users.map (fun u => { u with last_login := none }) =
        db.users.map (fun u => { u with last_login := none })) := by
  refine ⟨?_, rfl, ?_, ?_⟩
  · intro e he
    simp only [get_current_user] at he
    split at he
    · exact (Except.error.inj he).symm
    · split at he
      · exact (Except.error.inj he).symm
      · split at he
        · exact (Except.error.inj he).symm
        · simp at he
  · constructor
    · rintro ⟨r, hr⟩
      cases hv : verify_token now token "access" with
      | none => simp only [get_current_user, hv] at hr; exact Except.noConfusion hr
      | some payload =>
        obtain ⟨psub⟩ := payload
        have hps : psub = token.sub := verify_token_sub hv
        cases hsub : psub with
        | none =>
          simp only [get_current_user, hv, hsub] at hr
          exact Except.noConfusion hr
        | some w =>
          cases hfind : db.users.find?
              (fun u => decide (u.wallet_address = lower w)) with
          | none =>
            simp only [get_current_user, hv, hsub, hfind] at hr
            exact Except.noConfusion hr
          | some user =>
            exact ⟨w, rfl, by rw [hfind]; rfl⟩
    · rintro ⟨w, hw, hfind⟩
      obtain ⟨u, hu⟩ := Option.isSome_iff_exists.mp hfind
      refine ⟨(⟨db.auth_nonces, updateFirst (fun x => decide (x.id = u.id))
        (fun x => { x with last_login := some now }) db.users⟩, u), ?_⟩
      simp only [get_current_user, hw]
      rw [hu]
  · intro db' user hok
    cases hv : verify_token now token "access" with
    | none => simp only [get_current_user, hv] at hok; exact Except.noConfusion hok
    | some payload =>
      obtain ⟨psub⟩ := payload
      have hps : psub = token.sub := verify_token_sub hv
      cases hsub : psub with
      | none =>
        simp only [get_current_user, hv, hsub] at hok
        exact Except.noConfusion hok
      | some w =>
        cases hfind : db.users.find?
            (fun u => decide (u.wallet_address = lower w)) with
        | none =>
          simp only [get_current_user, hv, hsub, hfind] at hok
          exact Except.noConfusion hok
        | some u =>
          simp only [get_current_user, hv, hsub, hfind] at hok
          rw [Except.ok.injEq, Prod.mk.injEq] at hok
          obtain ⟨hdb, huser⟩ := hok
          subst huser
          have hmemu : u ∈ db.users := List.mem_of_find?_eq_some hfind
          have hq := List.find?_some hfind
          have hwuser : u.wallet_address = lower w := of_decide_eq_true hq
          refine ⟨hmemu, ⟨w, by rw [← hps, hsub], hwuser⟩, ?_, ?_⟩
          · subst hdb
            have hpu : decide (u.id = u.id) = true := by simp
            exact self_mem_updateFirst
              (f := fun x => { x with last_login := some now })
              (users_unique_id h u.id) hmemu hpu
          · subst hdb
            apply map_updateFirst
            intro x
            rfl

/-- C5 witness: on the concrete database, a valid access token resolves the
user and stamps last-login in the stored record. -/
theorem C5_current_user_witness :
    dbA.wf = true ∧
    (get_current_user dbA 5 (create_access_token 0 walletA)).toOption.map
      (fun p => decide ({ p.2 with last_login := some 5 } ∈ p.1.users)) =
      some true := by
  refine ⟨by decide, ?_⟩
  have h := C5_current_user dbA 5 (create_access_token 0 walletA) (by decide)
  cases hrun : get_current_user dbA 5 (create_access_token 0 walletA) with
  | error e =>
    have hok : (get_current_user dbA 5 (create_access_token 0 walletA)).isOk = true := by
      decide
    rw [hrun] at hok
    exact Bool.noConfusion hok
  | ok p =>
    obtain ⟨hmem, hsubw, hmem2, hmap⟩ := h.2.2.2 p.1 p.2 hrun
    simp only [Except.toOption, Option.map_some']
    exact congrArg some (decide_eq_true hmem2)

/-! ## Claim theorems: user creation in verify-signature -/

/-- Projection of a user document onto the fields the existing-user path does
not touch (everything except `last_login` and `refresh_token`). -/
def profileFields (u : UserDoc) : UserDoc :=
  { u with last_login := none, refresh_token := none }

/-- C4 counterexample: on the concrete database with an existing user, the
successful verify-signature call updates more than the last-login timestamp —
the stored refresh token changes from `none` to the newly minted token. -/
theorem C4_counterexample :
    dbA.users.map (fun u => u.refresh_token) = [none] ∧
    (match verify_signature_and_login recover0 dbA 5 99 reqA with
     | .ok (_, resp) => some resp.is_new_user
     | .error _ => none) = some false ∧
    (match verify_signature_and_login recover0 dbA 5 99 reqA with
     | .ok (db', _) => db'.users.map (fun u => u.refresh_token)
     | .error _ => []) = [some (create_refresh_token 5 walletA)] := by
  refine ⟨rfl, by decide, by decide⟩

/-- C4 (amended): with a live nonce and valid signature — when no user exists
for the wallet, a new user is created only if registration data is supplied
(else `MissingRegistrationData`, HTTP 400) and the lowercased username is
free (else `UsernameTaken`, HTTP 409 Conflict); when a user already exists,
no new user is created and, apart from the last-login stamp and the refresh
token the same call persists on the record, every user record is unchanged. -/
theorem C4_user_creation (recover : String → String → Option String)
    (db : DB) (now fresh_id : Nat) (req : SignatureRequest) (d : NonceDoc)
    (h : db.wf = true)
    (hf : db.auth_nonces.find?
      (fun x => decide (x.wallet_address = lower req.wallet_address)) = some d)
    (hexp : ¬ now > d.expires_at) (hn : d.nonce = req.nonce)
    (hsig : verify_signature recover d.message req.signature
      (lower req.wallet_address) = true) :
    (db.users.find?
        (fun u => decide (u.wallet_address = lower req.wallet_address)) = none →
      req.user_data = none →
      verify_signature_and_login recover db now fresh_id req =
        .error .MissingRegistrationData ∧
      AuthError.MissingRegistrationData.httpStatus = 400) ∧
    (∀ ud, db.users.find?
        (fun u => decide (u.wallet_address = lower req.wallet_address)) = none →
      req.user_data = some ud →
      (db.users.find? fun u => decide (u.username = lower ud.username)).isSome = true →
      verify_signature_and_login recover db now fresh_id req = .error .UsernameTaken ∧
      AuthError.UsernameTaken.httpStatus = 409) ∧
    (∀ ud, db.users.find?
        (fun u => decide (u.wallet_address = lower req.wallet_address)) = none →
      req.user_data = some ud →
      (db.users.find? fun u => decide (u.username = lower ud.username)) = none →
      (∀ u ∈ db.users, u.id ≠ fresh_id) →
      ∃ db' resp,
        verify_signature_and_login recover db now fresh_id req = .ok (db', resp) ∧
        resp.is_new_user = true ∧
        db'.users.length = db.users.length + 1 ∧
        ∃ u' ∈ db'.users, u'.id = fresh_id ∧
          u'.wallet_address = lower req.wallet_address ∧
          u'.username = lower ud.username) ∧
    (∀ user, db.users.find?
        (fun u => decide (u.wallet_address = lower req.wallet_address)) = some user →
      ∃ db' resp,
        verify_signature_and_login recover db now fresh_id req = .ok (db', resp) ∧
        resp.is_new_user = false ∧
        db'.users.length = db.users.length ∧
        db'.users.map profileFields = db.users.map profileFields ∧
        ∃ u' ∈ db'.users, u'.id = user.id ∧ u'.last_login = some now ∧
          u'.refresh_token = some (create_refresh_token now (lower req.wallet_address))) := by
  refine ⟨?_, ?_, ?_, ?_⟩
  · intro huser hdata
    exact ⟨vsl_missing_registration recover db now fresh_id req d hf hexp hn hsig
      huser hdata, rfl⟩
  · intro ud huser hdata htaken
    exact ⟨vsl_username_taken recover db now fresh_id req d ud hf hexp hn hsig
      huser hdata htaken, rfl⟩
  · intro ud huser hdata hfree hfresh
    have hrun := vsl_new_user recover db now fresh_id req d ud hf hexp hn hsig
      huser hdata hfree hfresh
    rw [finishLogin] at hrun
    refine ⟨_, _, hrun, rfl, ?_, ?_⟩
    · rw [length_updateFirst, List.length_append]
      rfl
    · have hpair : (db.users ++
          [newUserDoc fresh_id (lower req.wallet_address) ud now]).Pairwise
          (fun a b => ¬(decide (a.id = fresh_id) = true ∧
            decide (b.id = fresh_id) = true)) := by
        rw [List.pairwise_append]
        refine ⟨users_unique_id h fresh_id, List.pairwise_singleton _ _, ?_⟩
        intro a ha b _ hab
        exact hfresh a ha (of_decide_eq_true hab.1)
      have hmemnu : newUserDoc fresh_id (lower req.wallet_address) ud now ∈
          db.users ++ [newUserDoc fresh_id (lower req.wallet_address) ud now] :=
        List.mem_append_right _ (List.mem_singleton_self _)
      have hm := self_mem_updateFirst
        (f := fun u => { u with
          refresh_token := some (create_refresh_token now (lower req.wallet_address)) })
        hpair hmemnu (by simp [newUserDoc])
      exact ⟨_, hm, rfl, rfl, rfl⟩
  · intro user huser
    have hrun := vsl_existing_user recover db now fresh_id req d user hf hexp hn hsig
      huser
    rw [finishLogin] at hrun
    refine ⟨_, _, hrun, rfl, ?_, ?_, ?_⟩
    · rw [length_updateFirst, length_updateFirst]
    · have h1 : (updateFirst (fun u => decide (u.id = user.id))
          (fun u => { u with last_login := some now }) db.users).map profileFields
          = db.users.map profileFields := by
        apply map_updateFirst
        intro x
        rfl
      have h2 : (updateFirst (fun u => decide (u.id = user.id))
          (fun u => { u with
            refresh_token := some (create_refresh_token now (lower req.wallet_address)) })
          (updateFirst (fun u => decide (u.id = user.id))
            (fun u => { u with last_login := some now }) db.users)).map profileFields
          = (updateFirst (fun u => decide (u.id = user.id))
            (fun u => { u with last_login := some now }) db.users).map profileFields := by
        apply map_updateFirst
        intro x
        rfl
      rw [h2, h1]
    · have hmemu : user ∈ db.users := List.mem_of_find?_eq_some huser
      have hpu : decide (user.id = user.id) = true := by simp
      have hm1 := self_mem_updateFirst
        (f := fun u => { u with last_login := some now })
        (users_unique_id h user.id) hmemu hpu
      have hmapid : (updateFirst (fun u => decide (u.id = user.id))
          (fun u => { u with last_login := some now }) db.users).map UserDoc.id
          = db.users.map UserDoc.id := by
        apply map_updateFirst
        intro x
        rfl
      have hdbp' : (db.users.map UserDoc.id).Pairwise
          (fun i j => ¬(decide (i = user.id) = true ∧ decide (j = user.id) = true)) :=
        List.pairwise_map.mpr (users_unique_id h user.id)
      rw [← hmapid] at hdbp'
      have hu1p : (updateFirst (fun u => decide (u.id = user.id))
          (fun u => { u with last_login := some now }) db.users).Pairwise
          (fun a b => ¬(decide (a.id = user.id) = true ∧
            decide (b.id = user.id) = true)) :=
        List.pairwise_map.mp hdbp'
      have hm2 := self_mem_updateFirst
        (f := fun u => { u with
          refresh_token := some (create_refresh_token now (lower req.wallet_address)) })
        hu1p hm1 (by simp)
      exact ⟨_, hm2, rfl, rfl, rfl⟩

/-- C4 witness: the existing-user path on the concrete database succeeds,
creates no user, preserves all profile fields, and stamps last-login and the
new refresh token on the stored record. -/
theorem C4_user_creation_witness :
    dbA.wf = true ∧
    ∃ db' resp,
      verify_signature_and_login recover0 dbA 5 99 reqA = .ok (db', resp) ∧
      resp.is_new_user = false ∧
      db'.users.length = dbA.users.length ∧
      db'.users.map profileFields = dbA.users.map profileFields ∧
      ∃ u' ∈ db'.users, u'.id = userA.id ∧ u'.last_login = some 5 ∧
        u'.refresh_token = some (create_refresh_token 5 (lower reqA.wallet_address)) :=
  ⟨by decide,
   (C4_user_creation recover0 dbA 5 99 reqA nonceDocA (by decide) (by decide)
     (by decide) (by decide) (by decide)).2.2.2 userA (by decide)⟩

/-! ## Claim theorems: nonce issuance -/

/-- String concatenation is associative. -/
theorem str_append_assoc (a b c : String) : a ++ b ++ c = a ++ (b ++ c) := by
  cases a
  cases b
  cases c
  apply congrArg String.mk
  apply List.append_assoc

/-- Lowercase hex digit membership. -/
def isHexDigit (c : Char) : Bool :=
  "0123456789abcdef".data.contains c

/-- `secrets.token_hex` output length: two hex characters per entropy byte. -/
theorem generate_nonce_length (e : List Nat) :
    (generate_nonce e).length = 2 * e.length := by
  show ((e.map byteToHex).flatten).length = 2 * e.length
  induction e with
  | nil => rfl
  | cons b bs ih =>
    rw [List.map_cons, List.flatten_cons, List.length_append, ih]
    show 2 + 2 * bs.length = 2 * (bs.length + 1)
    omega

/-- Every character of a generated nonce is a lowercase hex digit. -/
theorem generate_nonce_hex (e : List Nat) :
    ∀ c ∈ (generate_nonce e).data, isHexDigit c = true := by
  have hdig : ∀ n, n < 16 → isHexDigit (hexDigit n) = true := by decide
  show ∀ c ∈ (e.map byteToHex).flatten, isHexDigit c = true
  induction e with
  | nil => intro c hc; simp at hc
  | cons b bs ih =>
    intro c hc
    rw [List.map_cons, List.flatten_cons, List.mem_append] at hc
    rcases hc with hc | hc
    · rw [byteToHex] at hc
      rcases List.mem_cons.mp hc with rfl | hc2
      · exact hdig _ (by omega)
      · rcases List.mem_cons.mp hc2 with rfl | hc3
        · exact hdig _ (by omega)
        · simp at hc3
    · exact ih c hc

/-- C7: request-nonce returns the generated nonce (32 lowercase hex
characters for 16 entropy bytes, i.e. 128 bits) together with the challenge
message embedding the lowercased wallet address, the nonce and the current
timestamp, and upserts a single record keyed by the lowercased wallet with
expiry 5 minutes (300 seconds) after issuance, overwriting any prior
outstanding nonce for that wallet; well-formedness (at most one outstanding
nonce per wallet) is preserved. -/
theorem C7_request_nonce (db : DB) (now : Nat) (entropy : List Nat) (raw : String)
    (h : db.wf = true) (he : entropy.length = 16) :
    (request_nonce db now entropy raw).2.nonce = generate_nonce entropy ∧
    (request_nonce db now entropy raw).2.message =
      create_auth_message (lower raw) (generate_nonce entropy) now ∧
    (request_nonce db now entropy raw).2.wallet_address = lower raw ∧
    (generate_nonce entropy).length = 32 ∧
    (∀ c ∈ (generate_nonce entropy).data, isHexDigit c = true) ∧
    (∃ p q, create_auth_message (lower raw) (generate_nonce entropy) now =
      p ++ lower raw ++ q) ∧
    (∃ p q, create_auth_message (lower raw) (generate_nonce entropy) now =
      p ++ generate_nonce entropy ++ q) ∧
    (∃ p q, create_auth_message (lower raw) (generate_nonce entropy) now =
      p ++ toString now ++ q) ∧
    (∃ d ∈ (request_nonce db now entropy raw).1.auth_nonces,
      d.wallet_address = lower raw ∧ d.nonce = generate_nonce entropy ∧
      d.message = create_auth_message (lower raw) (generate_nonce entropy) now ∧
      d.created_at = now ∧ d.expires_at = now + 300) ∧
    (∀ d ∈ (request_nonce db now entropy raw).1.auth_nonces,
      d.wallet_address = lower raw →
      d = ⟨lower raw, generate_nonce entropy,
        create_auth_message (lower raw) (generate_nonce entropy) now,
        now, now + 300⟩) ∧
    (request_nonce db now entropy raw).1.wf = true := by
  refine ⟨rfl, rfl, rfl, by rw [generate_nonce_length, he], generate_nonce_hex entropy,
    ?_, ?_, ?_, ?_, ?_, ?_⟩
  · refine ⟨msgA, msgB ++ generate_nonce entropy ++ msgC ++ toString now ++ msgD, ?_⟩
    simp only [create_auth_message, str_append_assoc]
  · refine ⟨msgA ++ lower raw ++ msgB, msgC ++ toString now ++ msgD, ?_⟩
    simp only [create_auth_message, str_append_assoc]
  · refine ⟨msgA ++ lower raw ++ msgB ++ generate_nonce entropy ++ msgC, msgD, ?_⟩
    simp only [create_auth_message, str_append_assoc]
  · simp only [request_nonce]
    split
    · next hsome =>
      obtain ⟨d0, hd0⟩ := Option.isSome_iff_exists.mp hsome
      have hmem := List.mem_of_find?_eq_some hd0
      have hp0 := List.find?_some hd0
      have hm := self_mem_updateFirst
        (f := fun d => { d with
          nonce := generate_nonce entropy,
          message := create_auth_message (lower raw) (generate_nonce entropy) now,
          created_at := now, expires_at := now + 300 })
        ((nonces_unique_wallet h (lower raw)))
        hmem hp0
      exact ⟨_, hm, of_decide_eq_true hp0, rfl, rfl, rfl, rfl⟩
    · exact ⟨⟨lower raw, generate_nonce entropy,
        create_auth_message (lower raw) (generate_nonce entropy) now, now, now + 300⟩,
        List.mem_append_right _ (List.mem_singleton_self _), rfl, rfl, rfl, rfl, rfl⟩
  · simp only [request_nonce]
    split
    · next hsome =>
      intro x hx hxw
      rcases mem_updateFirst (nonces_unique_wallet h (lower raw)) hx with
        ⟨_, hpfalse⟩ | ⟨y, _, hpy, rfl⟩
      · have hcontra : decide (x.wallet_address = lower raw) = true := decide_eq_true hxw
        rw [hpfalse] at hcontra
        exact Bool.noConfusion hcontra
      · have hyw : y.wallet_address = lower raw := of_decide_eq_true hpy
        obtain ⟨yw, yn, ym, yc, ye⟩ := y
        dsimp only at hyw
        subst hyw
        rfl
    · next hnone =>
      have hfn : db.auth_nonces.find?
          (fun d => decide (d.wallet_address = lower raw)) = none :=
        Option.not_isSome_iff_eq_none.mp (by simpa using hnone)
      intro x hx hxw
      rcases List.mem_append.mp hx with hxl | hxr
      · exact absurd (decide_eq_true hxw) (List.find?_eq_none.mp hfn x hxl)
      · rw [List.mem_singleton.mp hxr]
  · rw [DB.wf_iff]
    refine ⟨((DB.wf_iff db).mp h).1, ?_⟩
    simp only [request_nonce]
    split
    · next hsome =>
      have hmapw := map_updateFirst
        (g := NonceDoc.wallet_address)
        (p := fun d => decide (d.wallet_address = lower raw))
        (f := fun d => { d with
          nonce := generate_nonce entropy,
          message := create_auth_message (lower raw) (generate_nonce entropy) now,
          created_at := now, expires_at := now + 300 })
        (fun x => rfl) db.auth_nonces
      have hdbp : (db.auth_nonces.map NonceDoc.wallet_address).Pairwise
          (fun i j => i ≠ j) :=
        List.pairwise_map.mpr ((DB.wf_iff db).mp h).2
      rw [← hmapw] at hdbp
      exact List.pairwise_map.mp hdbp
    · next hnone =>
      have hfn : db.auth_nonces.find?
          (fun d => decide (d.wallet_address = lower raw)) = none :=
        Option.not_isSome_iff_eq_none.mp (by simpa using hnone)
      rw [List.pairwise_append]
      refine ⟨((DB.wf_iff db).mp h).2, List.pairwise_singleton _ _, ?_⟩
      intro a ha b hb
      rw [List.mem_singleton.mp hb]
      intro haw
      exact absurd (decide_eq_true haw) (List.find?_eq_none.mp hfn a ha)

/-- 16 concrete entropy bytes for the nonce-issuance witness. -/
def entropy16 : List Nat :=
  [222, 173, 190, 239, 0, 17, 34, 51, 68, 85, 102, 119, 136, 153, 170, 187]

/-- A 42-character wallet address with uppercase hex digits. -/
def rawU : String := "0xAAAAAAAAAAAAAAAAAAAAAAAAAAAAAAAAAAAAAAAA"

/-- C7 witness: issuing a nonce for the uppercase wallet on the concrete
database stores exactly one record under the lowercased key with a 5-minute
expiry, and the generated nonce has 32 hex characters. -/
theorem C7_request_nonce_witness :
    dbA.wf = true ∧ entropy16.length = 16 ∧
    (generate_nonce entropy16).length = 32 ∧
    (request_nonce dbA 7 entropy16 rawU).2.wallet_address = lower rawU ∧
    (∃ d ∈ (request_nonce dbA 7 entropy16 rawU).1.auth_nonces,
      d.wallet_address = lower rawU ∧ d.nonce = generate_nonce entropy16 ∧
      d.message = create_auth_message (lower rawU) (generate_nonce entropy16) 7 ∧
      d.created_at = 7 ∧ d.expires_at = 307) ∧
    (request_nonce dbA 7 entropy16 rawU).1.wf = true := by
  have h := C7_request_nonce dbA 7 entropy16 rawU (by decide) (by decide)
  exact ⟨by decide, by decide, h.2.2.2.1, h.2.2.1,
    h.2.2.2.2.2.2.2.2.1, h.2.2.2.2.2.2.2.2.2.2⟩

/-! ## Claim theorems: wallet address normalization -/

/-- A 42-character string that does not start with `0x`. -/
def badWallet : String := "bbbbbbbbbbbbbbbbbbbbbbbbbbbbbbbbbbbbbbbbbb"

/-- C8 counterexample: the public `AuthRequest`/`SignatureRequest` field
validation (42 characters, nothing else) accepts a wallet address that does
not start with `0x`. -/
theorem C8_counterexample :
    validWalletField badWallet = true ∧
    pyStartsWith badWallet "0x" = false := by decide

/-- C8 (amended): every enumerated auth operation lowercases the supplied
wallet address before storing or querying — request-nonce stores under the
lowercased key, verify-signature looks the nonce up by the lowercased wallet,
and current-user lookup queries the lowercased token subject; the
`0x`-prefix requirement is enforced (with lowercasing) only by the
registration-data validator `UserCreate.validate_wallet_address`, while the
`AuthRequest`/`SignatureRequest` wallet fields enforce exactly the
42-character length. -/
theorem C8_wallet_normalization :
    (∀ v w, UserCreate.validate_wallet_address v = some w →
      pyStartsWith v "0x" = true ∧ w = lower v) ∧
    (∀ v, pyStartsWith v "0x" = false →
      UserCreate.validate_wallet_address v = none) ∧
    (∀ s, validWalletField s = true ↔ s.length = 42) ∧
    (∀ (db : DB) (now : Nat) (entropy : List Nat) (raw : String),
      (request_nonce db now entropy raw).2.wallet_address = lower raw ∧
      ∀ d ∈ (request_nonce db now entropy raw).1.auth_nonces,
        d ∈ db.auth_nonces ∨ d.wallet_address = lower raw) ∧
    (∀ (recover : String → String → Option String) (db : DB)
        (now fresh_id : Nat) (req : SignatureRequest),
      (verify_signature_and_login recover db now fresh_id req =
          .error .NonceNotFound ↔
        db.auth_nonces.find?
          (fun d => decide (d.wallet_address = lower req.wallet_address)) = none)) ∧
    (∀ (db : DB) (now : Nat) (token : Token) (db' : DB) (user : UserDoc),
      get_current_user db now token = .ok (db', user) →
      ∃ w, token.sub = some w ∧ user.wallet_address = lower w) := by
  refine ⟨?_, ?_, ?_, ?_, ?_, ?_⟩
  · intro v w hv
    unfold UserCreate.validate_wallet_address at hv
    split at hv
    · next hpre => exact ⟨hpre, (Option.some.inj hv).symm⟩
    · exact Option.noConfusion hv
  · intro v hv
    simp [UserCreate.validate_wallet_address, hv]
  · intro s
    simp [validWalletField]
  · intro db now entropy raw
    refine ⟨rfl, ?_⟩
    simp only [request_nonce]
    split
    · next hsome =>
      intro x hx
      rcases mem_updateFirst_weak hx with hm | ⟨y, _, hpy, rfl⟩
      · exact .inl hm
      · exact .inr (of_decide_eq_true hpy)
    · intro x hx
      rcases List.mem_append.mp hx with hxl | hxr
      · exact .inl hxl
      · exact .inr (by rw [List.mem_singleton.mp hxr])
  · intro recover db now fresh_id req
    exact vsl_nonce_not_found_iff recover db now fresh_id req
  · intro db now token db' user hok
    cases hv : verify_token now token "access" with
    | none =>
      simp only [get_current_user, hv] at hok
      exact Except.noConfusion hok
    | some payload =>
      obtain ⟨psub⟩ := payload
      have hps : psub = token.sub := verify_token_sub hv
      cases hsub : psub with
      | none =>
        simp only [get_current_user, hv, hsub] at hok
        exact Except.noConfusion hok
      | some w =>
        cases hfind : db.users.find?
            (fun u => decide (u.wallet_address = lower w)) with
        | none =>
          simp only [get_current_user, hv, hsub, hfind] at hok
          exact Except.noConfusion hok
        | some u =>
          simp only [get_current_user, hv, hsub, hfind] at hok
          rw [Except.ok.injEq, Prod.mk.injEq] at hok
          obtain ⟨hdb, huser⟩ := hok
          subst huser
          have hq := List.find?_some hfind
          exact ⟨w, by rw [← hps, hsub], of_decide_eq_true hq⟩

/-- C8 witness: the registration validator lowercases a mixed-case
`0x`-prefixed address and rejects a non-prefixed one. -/
theorem C8_wallet_normalization_witness :
    (pyStartsWith "0xAbC" "0x" = true ∧ "0xabc" = lower "0xAbC") ∧
    UserCreate.validate_wallet_address "abc" = none :=
  ⟨C8_wallet_normalization.1 "0xAbC" "0xabc" (by decide),
   C8_wallet_normalization.2.1 "abc" (by decide)⟩

end ViralSafe
